import Mathlib

/-!
Verification development for the `user-sms` two-party direct-messaging
service.  The definitions below are a shallow embedding of the JavaScript
source: the chat controller (`controllers/chatController.js`, the revision
that also performs push/realtime fan-out), the push notification service
(`services/pushNotificationService.js`) and the mongoose data models
(`conversationModel`, `messageModel`, `deviceTokenModel`, `userModel`).

Modelling conventions:
* A mongoose `ObjectId` is modelled as a `Nat`; a raw id arriving in a
  request (params / auth) is `Option Nat`, where `none` stands for a value
  that fails `mongoose.Types.ObjectId.isValid` (or is absent/falsy) and
  `some n` for a well-formed id.  All well-formed ids behave uniformly in
  the source, so this is faithful.
* `Date` values are `Nat` timestamps; each state-changing operation takes
  the current time `now` as an explicit argument.
* The mongoose `Map`-valued field `unreadCount` (keyed by the stringified
  user id) is an association list `List (Nat × Nat)`; `mapGet`/`mapSet`
  model `Map.get` and the dynamic-path update `{"unreadCount.<id>": v}`.
* Mongo collections are Lean lists; `find` with `sort` is modelled as a
  filter followed by a stable insertion sort on the sort key, `findOne`
  as `List.find?` (first match), `findByIdAndUpdate` as an update of the
  record(s) with the matching `_id`, `updateMany`/`deleteMany` as a map /
  filter over the collection.
* A JavaScript value that may be absent or of the wrong type, where the
  source inspects truthiness and `typeof` (the message `text` field), is
  modelled by the inductive `TextField` below.
-/

set_option autoImplicit false

namespace UserSms

/-- Association-list read, modelling `Map.prototype.get` on the mongoose
`Map` field (`conv.unreadCount?.get?.(id)` / `conv.unreadCount?.[id]`). -/
def mapGet (m : List (Nat × Nat)) (k : Nat) : Option Nat :=
  match m with
  | [] => none
  | (k', v) :: rest => if k' = k then some v else mapGet rest k

/-- Association-list write, modelling the dynamic-path mongo update
`{ ["unreadCount." + id]: v }`: replaces the entry for `k` or adds one. -/
def mapSet (m : List (Nat × Nat)) (k v : Nat) : List (Nat × Nat) :=
  match m with
  | [] => [(k, v)]
  | (k', v') :: rest =>
      if k' = k then (k, v) :: rest else (k', v') :: mapSet rest k v

/-- Stable insertion (descending by `key`) used to model a mongo
`sort({field: -1})`. -/
def insertDescBy {α : Type} (key : α → Nat) (a : α) : List α → List α
  | [] => [a]
  | b :: l => if key b ≤ key a then a :: b :: l else b :: insertDescBy key a l

/-- Sort a list descending by `key` (mongo `sort({field: -1})`). -/
def sortDescBy {α : Type} (key : α → Nat) : List α → List α
  | [] => []
  | a :: l => insertDescBy key a (sortDescBy key l)

/-- `messageType` enum of the message schema: `['text', 'voice', 'image']`. -/
inductive MessageType where
  | text
  | voice
  | image
deriving DecidableEq, Repr

/-- The JSON `text` field of a send-message request body.  The source
distinguishes absent/falsy values (`!text`), non-string values
(`typeof text !== 'string'`) and strings. `nonString truthy` is a value
of non-string type together with its JS truthiness. -/
inductive TextField where
  | missing
  | str (s : String)
  | nonString (truthy : Bool)
deriving DecidableEq, Repr

/-- `lastMessage` snapshot stored on a conversation. -/
structure LastMessage where
  text : String
  senderId : Option Nat
  createdAt : Nat
deriving DecidableEq, Repr

/-- `conversationSchema`: participants, last-message preview, per-user
unread counters, timestamps. -/
structure Conversation where
  id : Nat
  participants : List Nat
  lastMessage : LastMessage
  unreadCount : List (Nat × Nat)
  createdAt : Nat
  updatedAt : Nat
deriving DecidableEq, Repr

/-- Denormalised `replyTo` snapshot stored on a message. -/
structure ReplyData where
  rid : Nat
  rtext : String
  rsenderId : Option Nat
deriving DecidableEq, Repr

/-- `messageSchema`. -/
structure Message where
  id : Nat
  conversationId : Nat
  senderId : Nat
  receiverId : Nat
  messageType : MessageType
  text : String
  voiceUrl : Option String
  voiceDuration : Option Nat
  replyTo : Option ReplyData
  isRead : Bool
  readAt : Option Nat
  heartedBy : List Nat
  createdAt : Nat
deriving DecidableEq, Repr

/-- `userSchema` (as read through `.lean()`, so fields outside the schema
such as `city`/`userLocation` may be present in the raw document). -/
structure User where
  id : Nat
  name : Option String
  age : Option Nat
  userPhoto : List String
  isOnline : Bool
  lastSeen : Option Nat
  city : Option String
  userLocation : Option String
deriving DecidableEq, Repr

/-- The document store backing the chat controller. -/
structure DB where
  conversations : List Conversation
  messages : List Message
  users : List User
deriving Repr

/-- `replyTo` as it arrives in the request body (before the
`replyTo && replyTo._id && replyTo.text` check). -/
structure ReplyInput where
  rid : Option Nat
  rtext : String
  rsenderId : Option Nat
deriving Repr

/-- Request body of `POST /chats/:recipientId/messages`.  `messageType`
is `none` when the field is absent (the source then defaults to
`'text'`). -/
structure SendBody where
  text : TextField
  replyTo : Option ReplyInput
  messageType : Option MessageType
  voiceUrl : Option String
  voiceDuration : Option Nat
deriving Repr

/-- Result of `sendMessage`. `invalidInput` carries the 400 response
message; `serverError` is the catch-all 500 branch. -/
inductive SendRes where
  | unauthorized
  | invalidRecipient
  | invalidInput (msg : String)
  | serverError
  | created (m : Message)
deriving DecidableEq, Repr

/-- JS whitespace as recognised by `String.prototype.trim` (space, tab,
line terminators, form feed, vertical tab; the rarer Unicode space
code points are omitted from the model). -/
def isJsSpace (c : Char) : Bool :=
  c = ' ' || c = '\t' || c = '\n' || c = '\r' ||
  c = Char.ofNat 11 || c = Char.ofNat 12

/-- `String.prototype.trim`: strip leading and trailing whitespace. -/
def jsTrim (s : String) : String :=
  ⟨((s.data.dropWhile isJsSpace).reverse.dropWhile isJsSpace).reverse⟩

/-- JS truthiness of the `text` body field (`!text`). The only falsy
string is `''`. -/
def TextField.truthy : TextField → Bool
  | .missing => false
  | .str s => !(s == "")
  | .nonString t => t

/-- `typeof text === 'string'`. -/
def TextField.isString : TextField → Bool
  | .str _ => true
  | _ => false

/-- `text.trim()` where it is known to be a string (third disjunct of the
validation, short-circuited behind the `typeof` check). -/
def TextField.trimmed : TextField → String
  | .str s => jsTrim s
  | _ => ""

/-- The validation `!text || typeof text !== 'string' ||
text.trim().length === 0` for `messageType === 'text'`. -/
def textInvalid (t : TextField) : Bool :=
  !t.truthy || !t.isString || (t.trimmed.length == 0)

/-- `const messageText = text ? text.trim() : ''`.  Calling `.trim()` on a
truthy non-string throws a `TypeError` (caught by the handler's `catch`,
which answers 500); that is the `none` result. -/
def messageTextOf : TextField → Option String
  | .missing => some ""
  | .str s => some (if s == "" then "" else jsTrim s)
  | .nonString truthy => if truthy then none else some ""

/-- `!voiceUrl` — absent or empty-string voice URL is falsy. -/
def voiceUrlMissing : Option String → Bool
  | none => true
  | some s => s == ""

/-- Fixed placeholder preview text for voice messages. -/
def voicePlaceholder : String := "🎤 Голосовое сообщение"

/-- `Conversation.findOne({participants: {$all: [u, r]}})`. -/
def findConversation (convs : List Conversation) (u r : Nat) :
    Option Conversation :=
  convs.find? (fun c => c.participants.contains u && c.participants.contains r)

/-- `Conversation.findByIdAndUpdate(cid, ...)`: apply `f` to the record
with the matching `_id` (ids are unique in mongo; a missing id is a
no-op). -/
def updateConvById (convs : List Conversation) (cid : Nat)
    (f : Conversation → Conversation) : List Conversation :=
  convs.map (fun c => if c.id = cid then f c else c)

/-- `POST /chats/:recipientId/messages` — `sendMessage` from the chat
controller.  `now` is the current time, `newConvId`/`newMsgId` the ids
mongo would assign to freshly created records.  The push-notification and
Socket.IO emissions are fire-and-forget side channels that do not touch
this store and are absorbed by `.catch`/no-op; they do not appear in the
state transition. -/
def sendMessage (db : DB) (now newConvId newMsgId : Nat)
    (rawUserId rawRecipientId : Option Nat) (body : SendBody) :
    SendRes × DB :=
  match rawUserId with
  | none => (.unauthorized, db)
  | some userId =>
    match rawRecipientId with
    | none => (.invalidRecipient, db)
    | some recipientId =>
      let messageType := body.messageType.getD .text
      if messageType = .text ∧ textInvalid body.text then
        (.invalidInput "Message text is required", db)
      else if messageType = .voice ∧ voiceUrlMissing body.voiceUrl then
        (.invalidInput "Voice URL is required", db)
      else
        match messageTextOf body.text with
        | none => (.serverError, db)
        | some messageText =>
          let replyToData : Option ReplyData :=
            match body.replyTo with
            | some r =>
                match r.rid with
                | some ridv =>
                    if r.rtext == "" then none
                    else some ⟨ridv, r.rtext, r.rsenderId⟩
                | none => none
            | none => none
          let previewText :=
            if messageType = .voice then voicePlaceholder else messageText
          let found := findConversation db.conversations userId recipientId
          let conversation : Conversation :=
            match found with
            | some c => c
            | none =>
                { id := newConvId
                  participants := [userId, recipientId]
                  lastMessage :=
                    { text := previewText, senderId := some userId,
                      createdAt := now }
                  unreadCount := []
                  createdAt := now
                  updatedAt := now }
          let convs₀ :=
            match found with
            | some _ => db.conversations
            | none => db.conversations ++ [conversation]
          let message : Message :=
            { id := newMsgId
              conversationId := conversation.id
              senderId := userId
              receiverId := recipientId
              messageType := messageType
              text := messageText
              voiceUrl :=
                if messageType = .voice then body.voiceUrl else none
              voiceDuration :=
                if messageType = .voice
                then some (body.voiceDuration.getD 0) else none
              replyTo := replyToData
              isRead := false
              readAt := none
              heartedBy := []
              createdAt := now }
          let currentUnread := (mapGet conversation.unreadCount recipientId).getD 0
          let convs₁ :=
            updateConvById convs₀ conversation.id (fun c =>
              { c with
                  lastMessage :=
                    { text := previewText, senderId := some userId,
                      createdAt := message.createdAt }
                  unreadCount := mapSet c.unreadCount recipientId (currentUnread + 1)
                  updatedAt := now })
          (.created message,
            { db with conversations := convs₁,
                      messages := db.messages ++ [message] })

/-- `const page = Math.max(1, parseInt(req.query.page) || 1)`.  A query
parameter is `Option Int`: `none` when absent or not parseable (`parseInt`
yields `NaN`, which is falsy); `parseInt` yielding `0` is falsy too. -/
def clampPage (q : Option Int) : Int :=
  max 1 (match q with
         | some v => if v = 0 then 1 else v
         | none => 1)

/-- `const limit = Math.min(50, Math.max(1, parseInt(req.query.limit) || 30))`. -/
def clampLimit (q : Option Int) : Int :=
  min 50 (max 1 (match q with
                 | some v => if v = 0 then 30 else v
                 | none => 30))

/-- Result of `getMessages`. -/
inductive GetMessagesRes where
  | unauthorized
  | invalidRecipient
  | ok (messages : List Message) (conversationId : Option Nat)
      (page : Int) (hasMore : Bool)
deriving DecidableEq, Repr

/-- `GET /chats/:recipientId/messages` — `getMessages` from the chat
controller.  The mongo query `Message.find({conversationId}).sort({createdAt:
-1}).skip(skip).limit(limit + 1)` is a filter, a descending sort on
`createdAt`, a drop and a take. -/
def getMessages (db : DB) (rawUserId rawRecipientId : Option Nat)
    (pageQ limitQ : Option Int) : GetMessagesRes :=
  let page := clampPage pageQ
  let limit := clampLimit limitQ
  let skip := (page - 1) * limit
  match rawUserId with
  | none => .unauthorized
  | some userId =>
    match rawRecipientId with
    | none => .invalidRecipient
    | some recipientId =>
      match findConversation db.conversations userId recipientId with
      | none => .ok [] none page false
      | some conversation =>
        let fetched :=
          ((sortDescBy Message.createdAt
              (db.messages.filter
                (fun m => m.conversationId = conversation.id))).drop
            skip.toNat).take (limit.toNat + 1)
        let hasMore := limit.toNat < fetched.length
        let messagesToReturn :=
          if hasMore then fetched.take limit.toNat else fetched
        .ok messagesToReturn.reverse (some conversation.id) page hasMore

/-- Result of `markAsRead`. -/
inductive MarkRes where
  | unauthorized
  | invalidConversation
  | ok
deriving DecidableEq, Repr

/-- `POST /chats/:conversationId/read` — `markAsRead` from the chat
controller: an `updateMany` over the unread messages addressed to the
caller in that conversation, then a `findByIdAndUpdate` resetting the
caller's unread counter. -/
def markAsRead (db : DB) (now : Nat)
    (rawUserId rawConversationId : Option Nat) : MarkRes × DB :=
  match rawUserId with
  | none => (.unauthorized, db)
  | some userId =>
    match rawConversationId with
    | none => (.invalidConversation, db)
    | some conversationId =>
      let messages' :=
        db.messages.map (fun m =>
          if m.conversationId = conversationId ∧ m.receiverId = userId ∧
              m.isRead = false
          then { m with isRead := true, readAt := some now }
          else m)
      let convs' :=
        updateConvById db.conversations conversationId (fun c =>
          { c with unreadCount := mapSet c.unreadCount userId 0 })
      (.ok, { db with messages := messages', conversations := convs' })

/-- The enriched `otherUser` object built by `getConversations` /
`startConversation`. -/
structure OtherUser where
  id : Nat
  name : Option String
  age : Option Nat
  photo : Option String
  city : Option String
  isOnline : Bool
  lastSeen : Option Nat
deriving DecidableEq, Repr

/-- One entry of the `GET /chats` response. -/
structure ConvSummary where
  id : Nat
  otherUser : Option OtherUser
  lastMessage : LastMessage
  unreadCount : Nat
  updatedAt : Nat
deriving DecidableEq, Repr

/-- Result of `getConversations`. -/
inductive GetConversationsRes where
  | unauthorized
  | ok (conversations : List ConvSummary)
deriving DecidableEq, Repr

/-- The per-conversation enrichment step of `getConversations`:
resolve the other participant, their profile and first photo (via the
external presigner `getPhotoUrl`, passed in as a function), and the
caller's unread counter. -/
def enrichConversation (users : List User)
    (getPhotoUrl : String → Option String) (userId : Nat)
    (conv : Conversation) : ConvSummary :=
  let otherParticipantId := conv.participants.find? (fun p => !(p = userId))
  let otherUser : Option User :=
    match otherParticipantId with
    | some oid => users.find? (fun u => u.id = oid)
    | none => none
  let photoUrl : Option String :=
    match otherUser with
    | some ou =>
        match ou.userPhoto.head? with
        | some key => getPhotoUrl key
        | none => none
    | none => none
  { id := conv.id
    otherUser :=
      match otherUser with
      | some ou =>
          some { id := ou.id, name := ou.name, age := ou.age,
                 photo := photoUrl,
                 city := match ou.city with
                         | some c => some c
                         | none => ou.userLocation
                 isOnline := ou.isOnline, lastSeen := ou.lastSeen }
      | none => none
    lastMessage := conv.lastMessage
    unreadCount := (mapGet conv.unreadCount userId).getD 0
    updatedAt := conv.updatedAt }

/-- `GET /chats` — `getConversations` from the chat controller:
`Conversation.find({participants: userId}).sort({updatedAt: -1})`,
then enrichment of every record. -/
def getConversations (db : DB) (getPhotoUrl : String → Option String)
    (rawUserId : Option Nat) : GetConversationsRes :=
  match rawUserId with
  | none => .unauthorized
  | some userId =>
    let conversations :=
      sortDescBy Conversation.updatedAt
        (db.conversations.filter (fun c => c.participants.contains userId))
    .ok (conversations.map (enrichConversation db.users getPhotoUrl userId))

/-- Result of `deleteConversations`. -/
inductive DeleteRes where
  | unauthorized
  | noIdsProvided
  | notFound
  | ok (deletedCount : Nat)
deriving DecidableEq, Repr

/-- The membership-filtering loop of `deleteConversations`: malformed ids
are skipped, and each remaining id is kept only when a conversation with
that `_id` lists the caller among its participants. -/
def validConversationIds (convs : List Conversation) (userId : Nat) :
    List (Option Nat) → List Nat
  | [] => []
  | none :: rest => validConversationIds convs userId rest
  | some cid :: rest =>
      match convs.find? (fun c => c.id = cid && c.participants.contains userId) with
      | some c => c.id :: validConversationIds convs userId rest
      | none => validConversationIds convs userId rest

/-- `DELETE /chats` — `deleteConversations` from the chat controller. -/
def deleteConversations (db : DB) (rawUserId : Option Nat)
    (conversationIds : List (Option Nat)) : DeleteRes × DB :=
  match rawUserId with
  | none => (.unauthorized, db)
  | some userId =>
    if conversationIds.isEmpty then (.noIdsProvided, db)
    else
      let validIds := validConversationIds db.conversations userId conversationIds
      if validIds.isEmpty then (.notFound, db)
      else
        let messages' :=
          db.messages.filter (fun m => !(validIds.contains m.conversationId))
        let convs' :=
          db.conversations.filter (fun c => !(validIds.contains c.id))
        (.ok validIds.length,
          { db with messages := messages', conversations := convs' })

/-- `platform` enum of the device-token schema. -/
inductive Platform where
  | android
  | ios
deriving DecidableEq, Repr

/-- `deviceTokenSchema`: owner, FCM token string (unique index), platform,
device id, active flag, timestamps. -/
structure DeviceToken where
  userId : Nat
  fcmToken : String
  platform : Platform
  deviceId : Option String
  isActive : Bool
  createdAt : Nat
  updatedAt : Nat
deriving DecidableEq, Repr

/-- One entry of the provider's multicast response
(`response.responses[idx]`). -/
structure FcmResponse where
  success : Bool
  errorCode : Option String
deriving DecidableEq, Repr

/-- The outcome of the external `admin.messaging().sendEachForMulticast`
call: either a response with per-token results, or a thrown error
(e.g. misconfigured credentials). -/
inductive ProviderResult where
  | ok (responses : List FcmResponse)
  | thrown (err : String)
deriving DecidableEq, Repr

/-- Return value of `sendPushToUser` (`{success, reason/successCount}`). -/
inductive PushOutcome where
  | notInitialized
  | noTokens
  | sent (successCount : Nat)
  | failed (err : String)
deriving DecidableEq, Repr

/-- The two provider error codes treated as permanently invalid tokens. -/
def invalidTokenCode (c : Option String) : Bool :=
  c = some "messaging/invalid-registration-token" ||
  c = some "messaging/registration-token-not-registered"

/-- The `forEach` collecting `failedTokens`: the tokens (paired
positionally with the response entries) whose send failed with one of the
two permanently-invalid error codes. -/
def failedTokensOf (fcmTokens : List String) (responses : List FcmResponse) :
    List String :=
  (fcmTokens.zip responses).filterMap (fun p =>
    if !p.2.success && invalidTokenCode p.2.errorCode then some p.1 else none)

/-- `sendPushToUser(userId, notification)` from the push notification
service.  `firebaseInitialized` is the module-level init flag; `provider`
is the outcome of the external multicast call (only consulted when a send
actually happens).  Returns the result object and the updated device-token
collection; every error path returns a `{success: false}` object instead
of throwing. -/
def sendPushToUser (tokensDb : List DeviceToken)
    (firebaseInitialized : Bool) (provider : ProviderResult) (now : Nat)
    (userId : Nat) : PushOutcome × List DeviceToken :=
  if !firebaseInitialized then (.notInitialized, tokensDb)
  else
    let tokens := tokensDb.filter (fun t => t.userId = userId && t.isActive)
    if tokens.isEmpty then (.noTokens, tokensDb)
    else
      let fcmTokens := tokens.map DeviceToken.fcmToken
      match provider with
      | .thrown err => (.failed err, tokensDb)
      | .ok responses =>
          let failedTokens := failedTokensOf fcmTokens responses
          let tokensDb' :=
            tokensDb.map (fun t =>
              if failedTokens.contains t.fcmToken
              then { t with isActive := false, updatedAt := now }
              else t)
          (.sent (responses.countP (fun r => r.success)), tokensDb')

/-- Update-in-place of the first device-token record whose `fcmToken`
matches (`existingToken.userId = ...; existingToken.save()`). -/
def updateExistingToken (now userId : Nat) (fcmToken : String)
    (platform : Platform) (deviceId : Option String) :
    List DeviceToken → List DeviceToken
  | [] => []
  | t :: rest =>
      if t.fcmToken = fcmToken then
        { t with userId := userId, platform := platform,
                 deviceId := deviceId, isActive := true,
                 updatedAt := now } :: rest
      else t :: updateExistingToken now userId fcmToken platform deviceId rest

/-- `registerDeviceToken(userId, fcmToken, platform, deviceId)` from the
push notification service: upsert keyed on the token string. -/
def registerDeviceToken (tokensDb : List DeviceToken) (now userId : Nat)
    (fcmToken : String) (platform : Platform) (deviceId : Option String) :
    List DeviceToken :=
  match tokensDb.find? (fun t => t.fcmToken = fcmToken) with
  | some _ => updateExistingToken now userId fcmToken platform deviceId tokensDb
  | none =>
      tokensDb ++
        [{ userId := userId, fcmToken := fcmToken, platform := platform,
           deviceId := deviceId, isActive := true, createdAt := now,
           updatedAt := now }]

/-! ### Helper lemmas about the map and sort primitives -/

theorem mapGet_mapSet_self (m : List (Nat × Nat)) (k v : Nat) :
    mapGet (mapSet m k v) k = some v := by
  induction m with
  | nil => simp [mapGet, mapSet]
  | cons p rest ih =>
      by_cases h : p.1 = k <;> simp [mapGet, mapSet, h, ih]

theorem mapSet_mapSet_self (m : List (Nat × Nat)) (k v w : Nat) :
    mapSet (mapSet m k v) k w = mapSet m k w := by
  induction m with
  | nil => simp [mapSet]
  | cons p rest ih =>
      by_cases h : p.1 = k <;> simp [mapSet, h, ih]

theorem length_insertDescBy {α : Type} (key : α → Nat) (a : α)
    (l : List α) : (insertDescBy key a l).length = l.length + 1 := by
  induction l with
  | nil => rfl
  | cons b l ih =>
      by_cases h : key b ≤ key a <;> simp [insertDescBy, h, ih]

theorem length_sortDescBy {α : Type} (key : α → Nat) (l : List α) :
    (sortDescBy key l).length = l.length := by
  induction l with
  | nil => rfl
  | cons a l ih => simp [sortDescBy, length_insertDescBy, ih]

theorem mem_insertDescBy {α : Type} (key : α → Nat) (a b : α)
    (l : List α) : b ∈ insertDescBy key a l ↔ b = a ∨ b ∈ l := by
  induction l with
  | nil => simp [insertDescBy]
  | cons c l ih =>
      by_cases h : key c ≤ key a
      · simp [insertDescBy, h]
      · simp [insertDescBy, h, ih]
        tauto

theorem mem_sortDescBy {α : Type} (key : α → Nat) (b : α) (l : List α) :
    b ∈ sortDescBy key l ↔ b ∈ l := by
  induction l with
  | nil => simp [sortDescBy]
  | cons a l ih => simp [sortDescBy, mem_insertDescBy, ih]

theorem pairwise_insertDescBy {α : Type} (key : α → Nat) (a : α)
    (l : List α) (h : l.Pairwise (fun x y => key y ≤ key x)) :
    (insertDescBy key a l).Pairwise (fun x y => key y ≤ key x) := by
  induction l with
  | nil => simp [insertDescBy]
  | cons b l ih =>
      rw [List.pairwise_cons] at h
      by_cases hba : key b ≤ key a
      · rw [insertDescBy]
        simp only [hba, if_true]
        rw [List.pairwise_cons]
        refine ⟨?_, List.pairwise_cons.2 h⟩
        intro x hx
        rcases List.mem_cons.1 hx with hx | hx
        · exact hx ▸ hba
        · exact le_trans (h.1 x hx) hba
      · rw [insertDescBy]
        simp only [hba, if_false]
        rw [List.pairwise_cons]
        refine ⟨?_, ih h.2⟩
        intro x hx
        rcases (mem_insertDescBy key a x l).1 hx with hx | hx
        · exact hx ▸ le_of_lt (lt_of_not_le hba)
        · exact h.1 x hx

theorem pairwise_sortDescBy {α : Type} (key : α → Nat) (l : List α) :
    (sortDescBy key l).Pairwise (fun x y => key y ≤ key x) := by
  induction l with
  | nil => simp [sortDescBy]
  | cons a l ih => exact pairwise_insertDescBy key a _ ih

/-! ### Claim theorems -/

/-- C1: for a sender `A` and recipient `B` with no prior conversation,
`sendMessage` with `messageType 'text'` and text `'  hi '` stores the
message with text `'hi'` (trimmed), sets the new conversation's
`lastMessage` preview text to `'hi'`, and sets `B`'s `unreadCount` entry
to exactly `1` (it was `0`: no conversation existed). -/
theorem sendMessage_new_pair_trims_and_increments
    (db : DB) (now newConvId newMsgId A B : Nat)
    (hnc : findConversation db.conversations A B = none) :
    ∃ m c,
      (sendMessage db now newConvId newMsgId (some A) (some B)
        { text := .str "  hi ", replyTo := none, messageType := some .text,
          voiceUrl := none, voiceDuration := none }).1 = .created m ∧
      m.text = "hi" ∧
      m ∈ (sendMessage db now newConvId newMsgId (some A) (some B)
        { text := .str "  hi ", replyTo := none, messageType := some .text,
          voiceUrl := none, voiceDuration := none }).2.messages ∧
      c ∈ (sendMessage db now newConvId newMsgId (some A) (some B)
        { text := .str "  hi ", replyTo := none, messageType := some .text,
          voiceUrl := none, voiceDuration := none }).2.conversations ∧
      c.id = newConvId ∧ c.lastMessage.text = "hi" ∧
      mapGet c.unreadCount B = some 1 := by
  have hne : ¬ (("  hi " : String) = "") := by decide
  have ht : jsTrim "  hi " = "hi" := by decide
  have hlen : ¬ ((("hi" : String)).length = 0) := by decide
  have hmt : ¬ (MessageType.text = MessageType.voice) := by decide
  simp only [sendMessage, hnc]
  norm_num [textInvalid, TextField.truthy, TextField.isString,
    TextField.trimmed, messageTextOf, updateConvById, hne, ht, hlen, hmt,
    mapGet, mapSet]
  exact ⟨_, Or.inr rfl, rfl, rfl, by simp [mapGet]⟩

/-- Witness for `sendMessage_new_pair_trims_and_increments` at the empty
store with `A = 1`, `B = 2`. -/
theorem sendMessage_new_pair_trims_and_increments_witness :
    findConversation (DB.mk [] [] []).conversations 1 2 = none ∧
    (∃ m c,
      (sendMessage ⟨[], [], []⟩ 5 10 20 (some 1) (some 2)
        { text := .str "  hi ", replyTo := none, messageType := some .text,
          voiceUrl := none, voiceDuration := none }).1 = .created m ∧
      m.text = "hi" ∧
      m ∈ (sendMessage ⟨[], [], []⟩ 5 10 20 (some 1) (some 2)
        { text := .str "  hi ", replyTo := none, messageType := some .text,
          voiceUrl := none, voiceDuration := none }).2.messages ∧
      c ∈ (sendMessage ⟨[], [], []⟩ 5 10 20 (some 1) (some 2)
        { text := .str "  hi ", replyTo := none, messageType := some .text,
          voiceUrl := none, voiceDuration := none }).2.conversations ∧
      c.id = 10 ∧ c.lastMessage.text = "hi" ∧
      mapGet c.unreadCount 2 = some 1) :=
  ⟨rfl, sendMessage_new_pair_trims_and_increments ⟨[], [], []⟩ 5 10 20 1 2 rfl⟩

/-- C2: `markAsRead` is idempotent — running it twice in a row (with any
two clock readings) leaves exactly the state one run produces; one run
turns every stored message of the conversation addressed to the caller
and still unread into `isRead = true` with `readAt` set, and resets the
caller's `unreadCount` entry on the conversation to `0`. -/
theorem markAsRead_idempotent_and_effect (db : DB) (now₁ now₂ u c : Nat) :
    (markAsRead (markAsRead db now₁ (some u) (some c)).2 now₂
        (some u) (some c)).2
      = (markAsRead db now₁ (some u) (some c)).2 ∧
    (markAsRead db now₁ (some u) (some c)).1 = .ok ∧
    (∀ m ∈ db.messages, m.conversationId = c → m.receiverId = u →
      m.isRead = false →
      { m with isRead := true, readAt := some now₁ }
        ∈ (markAsRead db now₁ (some u) (some c)).2.messages) ∧
    (∀ conv ∈ db.conversations, conv.id = c →
      ∃ conv' ∈ (markAsRead db now₁ (some u) (some c)).2.conversations,
        conv'.id = c ∧ mapGet conv'.unreadCount u = some 0) := by
  refine ⟨?_, rfl, ?_, ?_⟩
  · simp only [markAsRead, updateConvById, List.map_map]
    congr 1
    · apply List.map_congr_left
      intro x _
      by_cases h : x.id = c
      · simp [Function.comp, h, mapSet_mapSet_self]
      · simp [Function.comp, h]
    · apply List.map_congr_left
      intro m _
      by_cases h : m.conversationId = c ∧ m.receiverId = u ∧ m.isRead = false
      · simp [Function.comp, h]
      · simp only [Function.comp]
        rw [if_neg h, if_neg h]
  · intro m hm h1 h2 h3
    simp only [markAsRead]
    refine List.mem_map.2 ⟨m, hm, ?_⟩
    simp [h1, h2, h3]
  · intro conv hconv hid
    simp only [markAsRead, updateConvById]
    refine ⟨_, List.mem_map.2 ⟨conv, hconv, rfl⟩, ?_⟩
    simp [hid, mapGet_mapSet_self]

/-- Witness for `markAsRead_idempotent_and_effect`: a store with one
unread message (conversation `3`, receiver `1`, counter `5`); the message
flips to read with `readAt = 7` and the counter entry becomes `0`. -/
theorem markAsRead_idempotent_and_effect_witness :
    (⟨9, 3, 2, 1, .text, "x", none, none, none, false, none, [], 4⟩ :
        Message) ∈
      (DB.mk [⟨3, [1, 2], ⟨"x", some 2, 4⟩, [(1, 5)], 0, 4⟩]
        [⟨9, 3, 2, 1, .text, "x", none, none, none, false, none, [], 4⟩]
        []).messages ∧
    (⟨9, 3, 2, 1, .text, "x", none, none, none, true, some 7, [], 4⟩ :
        Message) ∈
      (markAsRead
        (DB.mk [⟨3, [1, 2], ⟨"x", some 2, 4⟩, [(1, 5)], 0, 4⟩]
          [⟨9, 3, 2, 1, .text, "x", none, none, none, false, none, [], 4⟩]
          []) 7 (some 1) (some 3)).2.messages ∧
    (∃ conv' ∈
        (markAsRead
          (DB.mk [⟨3, [1, 2], ⟨"x", some 2, 4⟩, [(1, 5)], 0, 4⟩]
            [⟨9, 3, 2, 1, .text, "x", none, none, none, false, none, [], 4⟩]
            []) 7 (some 1) (some 3)).2.conversations,
      conv'.id = 3 ∧ mapGet conv'.unreadCount 1 = some 0) :=
  ⟨by decide,
   (markAsRead_idempotent_and_effect
      (DB.mk [⟨3, [1, 2], ⟨"x", some 2, 4⟩, [(1, 5)], 0, 4⟩]
        [⟨9, 3, 2, 1, .text, "x", none, none, none, false, none, [], 4⟩]
        []) 7 8 1 3).2.2.1
      ⟨9, 3, 2, 1, .text, "x", none, none, none, false, none, [], 4⟩
      (by decide) rfl rfl rfl,
   (markAsRead_idempotent_and_effect
      (DB.mk [⟨3, [1, 2], ⟨"x", some 2, 4⟩, [(1, 5)], 0, 4⟩]
        [⟨9, 3, 2, 1, .text, "x", none, none, none, false, none, [], 4⟩]
        []) 7 8 1 3).2.2.2
      ⟨3, [1, 2], ⟨"x", some 2, 4⟩, [(1, 5)], 0, 4⟩ (by decide) rfl⟩

/-- C10: `markAsRead` performs no membership or existence check — with
any well-formed user and conversation id (participant or not, existing
or not) it answers success; when no conversation matches the id the
conversation collection is untouched, and when one matches, its record
gets the caller's `unreadCount` entry set to `0` even if the caller is
not a participant. -/
theorem markAsRead_no_membership_check (db : DB) (now u c : Nat) :
    (markAsRead db now (some u) (some c)).1 = .ok ∧
    ((∀ conv ∈ db.conversations, conv.id ≠ c) →
      (markAsRead db now (some u) (some c)).2.conversations
        = db.conversations) ∧
    (∀ conv ∈ db.conversations, conv.id = c →
      { conv with unreadCount := mapSet conv.unreadCount u 0 }
        ∈ (markAsRead db now (some u) (some c)).2.conversations) := by
  refine ⟨rfl, ?_, ?_⟩
  · intro hno
    simp only [markAsRead, updateConvById]
    rw [List.map_congr_left (g := id), List.map_id]
    intro conv hconv
    simp [hno conv hconv]
  · intro conv hconv hid
    simp only [markAsRead, updateConvById]
    exact List.mem_map.2 ⟨conv, hconv, by simp [hid]⟩

/-- Witness for `markAsRead_no_membership_check`: caller `8` is not a
participant of conversation `3` and conversation `77` does not exist;
both calls succeed, the missing id leaves the store unchanged, and the
non-member caller still gets a zero counter entry. -/
theorem markAsRead_no_membership_check_witness :
    ((markAsRead (DB.mk [⟨3, [1, 2], ⟨"x", some 2, 4⟩, [(1, 5)], 0, 4⟩]
        [] []) 7 (some 8) (some 77)).1 = .ok ∧
      (markAsRead (DB.mk [⟨3, [1, 2], ⟨"x", some 2, 4⟩, [(1, 5)], 0, 4⟩]
        [] []) 7 (some 8) (some 77)).2.conversations
        = [⟨3, [1, 2], ⟨"x", some 2, 4⟩, [(1, 5)], 0, 4⟩]) ∧
    (⟨3, [1, 2], ⟨"x", some 2, 4⟩, [(1, 5), (8, 0)], 0, 4⟩ : Conversation)
      ∈ (markAsRead (DB.mk [⟨3, [1, 2], ⟨"x", some 2, 4⟩, [(1, 5)], 0, 4⟩]
          [] []) 7 (some 8) (some 3)).2.conversations :=
  ⟨⟨(markAsRead_no_membership_check
      (DB.mk [⟨3, [1, 2], ⟨"x", some 2, 4⟩, [(1, 5)], 0, 4⟩] [] [])
      7 8 77).1,
    (markAsRead_no_membership_check
      (DB.mk [⟨3, [1, 2], ⟨"x", some 2, 4⟩, [(1, 5)], 0, 4⟩] [] [])
      7 8 77).2.1 (by decide)⟩,
   (markAsRead_no_membership_check
      (DB.mk [⟨3, [1, 2], ⟨"x", some 2, 4⟩, [(1, 5)], 0, 4⟩] [] [])
      7 8 3).2.2 ⟨3, [1, 2], ⟨"x", some 2, 4⟩, [(1, 5)], 0, 4⟩
      (by decide) rfl⟩

theorem string_length_eq_zero (s : String) : s.length = 0 ↔ s = "" := by
  cases s with
  | mk data =>
    show data.length = 0 ↔ { data := data } = ("" : String)
    constructor
    · intro h
      have : data = [] := List.length_eq_zero.1 h
      rw [this]
    · intro h
      have : data = ("" : String).data := congrArg String.data h
      simp at this
      simp [this, String.length]

/-- The source's `text` validation fires exactly when the body's `text`
is not a string whose trim is non-empty (absent, wrong type, empty, or
whitespace-only). -/
theorem textInvalid_iff (t : TextField) :
    textInvalid t = true ↔ (∀ s, t = .str s → jsTrim s = "") := by
  cases t with
  | missing => simp [textInvalid, TextField.truthy]
  | nonString b =>
      simp [textInvalid, TextField.truthy, TextField.isString]
  | str s =>
      simp only [textInvalid, TextField.truthy, TextField.isString,
        TextField.trimmed, Bool.not_true, Bool.false_or, Bool.not_not]
      by_cases hs : s = ""
      · subst hs
        simp
        decide
      · simp [hs, string_length_eq_zero, TextField.str.injEq]

theorem voiceUrlMissing_iff (v : Option String) :
    voiceUrlMissing v = true ↔ (v = none ∨ v = some "") := by
  cases v with
  | none => simp [voiceUrlMissing]
  | some s => simp [voiceUrlMissing]

/-- C3: `getMessages` with `limit = 30`, `page = 1` over a conversation
holding exactly 31 stored messages answers `hasMore = true` with exactly
30 messages in chronological (oldest-first) order; with exactly 30 stored
messages it answers `hasMore = false` (the newest-first fetch requests
`limit + 1` records, trims to `limit` and reverses). -/
theorem getMessages_pagination_hasMore (db : DB) (u r : Nat)
    (conv : Conversation)
    (hc : findConversation db.conversations u r = some conv) :
    ((db.messages.filter (fun m => m.conversationId = conv.id)).length = 31 →
      ∃ msgs, getMessages db (some u) (some r) (some 1) (some 30)
          = .ok msgs (some conv.id) 1 true ∧
        msgs.length = 30 ∧
        msgs.Pairwise (fun a b => a.createdAt ≤ b.createdAt)) ∧
    ((db.messages.filter (fun m => m.conversationId = conv.id)).length = 30 →
      ∃ msgs, getMessages db (some u) (some r) (some 1) (some 30)
          = .ok msgs (some conv.id) 1 false ∧
        msgs.length = 30 ∧
        msgs.Pairwise (fun a b => a.createdAt ≤ b.createdAt)) := by
  constructor
  · intro h31
    simp only [getMessages, hc, clampPage, clampLimit]
    norm_num
    have hlen : (sortDescBy Message.createdAt
        (List.filter (fun m => decide (m.conversationId = conv.id))
          db.messages)).length = 31 := by
      rw [length_sortDescBy]; exact h31
    have hcond : 30 < (sortDescBy Message.createdAt
        (List.filter (fun m => decide (m.conversationId = conv.id))
          db.messages)).length := by rw [hlen]; norm_num
    rw [if_pos hcond]
    refine ⟨_, ⟨rfl, hcond⟩, ?_, ?_⟩
    · simp [List.length_take, hlen]
    · rw [List.pairwise_reverse]
      simp only [List.take_take]
      exact List.Pairwise.take (pairwise_sortDescBy Message.createdAt _)
  · intro h30
    simp only [getMessages, hc, clampPage, clampLimit]
    norm_num
    have hlen : (sortDescBy Message.createdAt
        (List.filter (fun m => decide (m.conversationId = conv.id))
          db.messages)).length = 30 := by
      rw [length_sortDescBy]; exact h30
    have hcond : ¬ (30 < (sortDescBy Message.createdAt
        (List.filter (fun m => decide (m.conversationId = conv.id))
          db.messages)).length) := by rw [hlen]; norm_num
    rw [if_neg hcond]
    refine ⟨_, ⟨rfl, by rw [hlen]⟩, ?_, ?_⟩
    · simp [List.length_take, hlen]
    · rw [List.pairwise_reverse]
      exact List.Pairwise.take (pairwise_sortDescBy Message.createdAt _)

/-- Witness for `getMessages_pagination_hasMore`: 31 concrete messages in
conversation `1` (both pagination cases are exercised, the second on the
30-message prefix store). -/
theorem getMessages_pagination_hasMore_witness :
    (findConversation [⟨1, [1, 2], ⟨"", none, 0⟩, [], 0, 0⟩] 1 2
        = some ⟨1, [1, 2], ⟨"", none, 0⟩, [], 0, 0⟩ ∧
      (((List.range 31).map (fun i =>
          (⟨i, 1, 1, 2, .text, "m", none, none, none, false, none, [], i⟩ :
            Message))).filter (fun m => m.conversationId = 1)).length = 31 ∧
      (∃ msgs, getMessages
          ⟨[⟨1, [1, 2], ⟨"", none, 0⟩, [], 0, 0⟩],
            (List.range 31).map (fun i =>
              ⟨i, 1, 1, 2, .text, "m", none, none, none, false, none, [], i⟩),
            []⟩ (some 1) (some 2) (some 1) (some 30)
            = .ok msgs (some 1) 1 true ∧
        msgs.length = 30 ∧
        msgs.Pairwise (fun a b => a.createdAt ≤ b.createdAt))) ∧
    ((((List.range 30).map (fun i =>
          (⟨i, 1, 1, 2, .text, "m", none, none, none, false, none, [], i⟩ :
            Message))).filter (fun m => m.conversationId = 1)).length = 30 ∧
      (∃ msgs, getMessages
          ⟨[⟨1, [1, 2], ⟨"", none, 0⟩, [], 0, 0⟩],
            (List.range 30).map (fun i =>
              ⟨i, 1, 1, 2, .text, "m", none, none, none, false, none, [], i⟩),
            []⟩ (some 1) (some 2) (some 1) (some 30)
            = .ok msgs (some 1) 1 false ∧
        msgs.length = 30 ∧
        msgs.Pairwise (fun a b => a.createdAt ≤ b.createdAt))) :=
  ⟨⟨by decide, by decide,
    (getMessages_pagination_hasMore
      ⟨[⟨1, [1, 2], ⟨"", none, 0⟩, [], 0, 0⟩],
        (List.range 31).map (fun i =>
          ⟨i, 1, 1, 2, .text, "m", none, none, none, false, none, [], i⟩),
        []⟩ 1 2 ⟨1, [1, 2], ⟨"", none, 0⟩, [], 0, 0⟩ (by decide)).1
      (by decide)⟩,
   ⟨by decide,
    (getMessages_pagination_hasMore
      ⟨[⟨1, [1, 2], ⟨"", none, 0⟩, [], 0, 0⟩],
        (List.range 30).map (fun i =>
          ⟨i, 1, 1, 2, .text, "m", none, none, none, false, none, [], i⟩),
        []⟩ 1 2 ⟨1, [1, 2], ⟨"", none, 0⟩, [], 0, 0⟩ (by decide)).2
      (by decide)⟩⟩

/-- C4 counterexample: with valid ids and `messageType 'image'`, a truthy
non-string `text` (e.g. a number) is *not* accepted — `text.trim()`
throws, the handler's catch answers a 500 server error and no message is
created — refuting "accepted regardless of content". -/
theorem sendMessage_image_nonstring_not_accepted :
    (sendMessage ⟨[], [], []⟩ 0 1 2 (some 3) (some 4)
      { text := .nonString true, replyTo := none, messageType := some .image,
        voiceUrl := none, voiceDuration := none }).1 = .serverError ∧
    ∀ m, (sendMessage ⟨[], [], []⟩ 0 1 2 (some 3) (some 4)
      { text := .nonString true, replyTo := none, messageType := some .image,
        voiceUrl := none, voiceDuration := none }).1 ≠ .created m := by
  have h : (sendMessage ⟨[], [], []⟩ 0 1 2 (some 3) (some 4)
      { text := .nonString true, replyTo := none, messageType := some .image,
        voiceUrl := none, voiceDuration := none }).1 = .serverError := by
    decide
  exact ⟨h, fun m hm => by rw [h] at hm; exact SendRes.noConfusion hm⟩

/-- C4 (amended): with valid sender and recipient ids, `sendMessage`
answers a 400 `InvalidInput` rejection iff the (defaulted) message type
is `text` and the body text is not a string with non-empty trim, or the
type is `voice` and the voice URL is absent or empty; type `image` has no
validation branch, so it is never rejected with `InvalidInput` (though it
can still fail with a 500 on a non-string text). -/
theorem sendMessage_validation_iff (db : DB) (now nc nm u r : Nat)
    (body : SendBody) :
    ((∃ msg, (sendMessage db now nc nm (some u) (some r) body).1
        = .invalidInput msg) ↔
      ((body.messageType.getD .text = .text ∧
          ∀ s, body.text = .str s → jsTrim s = "") ∨
       (body.messageType.getD .text = .voice ∧
          (body.voiceUrl = none ∨ body.voiceUrl = some "")))) ∧
    (body.messageType.getD .text = .image →
      ∀ msg, (sendMessage db now nc nm (some u) (some r) body).1
        ≠ .invalidInput msg) := by
  simp only [sendMessage]
  by_cases h1 : body.messageType.getD .text = .text ∧ textInvalid body.text = true
  · rw [if_pos h1]
    refine ⟨⟨fun _ => Or.inl ⟨h1.1, (textInvalid_iff _).1 h1.2⟩,
        fun _ => ⟨_, rfl⟩⟩, ?_⟩
    intro himg
    rw [himg] at h1
    exact absurd h1.1 (by decide)
  · rw [if_neg h1]
    by_cases h2 : body.messageType.getD .text = .voice ∧
        voiceUrlMissing body.voiceUrl = true
    · rw [if_pos h2]
      refine ⟨⟨fun _ => Or.inr ⟨h2.1, (voiceUrlMissing_iff _).1 h2.2⟩,
          fun _ => ⟨_, rfl⟩⟩, ?_⟩
      intro himg
      rw [himg] at h2
      exact absurd h2.1 (by decide)
    · rw [if_neg h2]
      have hno : ¬ (((body.messageType.getD .text = .text ∧
            ∀ s, body.text = .str s → jsTrim s = "") ∨
          (body.messageType.getD .text = .voice ∧
            (body.voiceUrl = none ∨ body.voiceUrl = some "")))) := by
        rintro (⟨ht, hts⟩ | ⟨hv, hvs⟩)
        · exact h1 ⟨ht, (textInvalid_iff _).2 hts⟩
        · exact h2 ⟨hv, (voiceUrlMissing_iff _).2 hvs⟩
      rcases hmt : messageTextOf body.text with _ | s
      · refine ⟨⟨?_, fun h => absurd h hno⟩, fun _ msg h => by simp at h⟩
        rintro ⟨msg, hmsg⟩
        simp at hmsg
      · refine ⟨⟨?_, fun h => absurd h hno⟩, fun _ msg h => by simp at h⟩
        rintro ⟨msg, hmsg⟩
        simp at hmsg

/-- Witness for `sendMessage_validation_iff` at a voice body with a
missing URL. -/
theorem sendMessage_validation_iff_witness :
    ((∃ msg, (sendMessage ⟨[], [], []⟩ 0 1 2 (some 3) (some 4)
        { text := .missing, replyTo := none, messageType := some .voice,
          voiceUrl := none, voiceDuration := none }).1
        = .invalidInput msg) ↔
      ((MessageType.voice = .text ∧
          ∀ s, TextField.missing = .str s → jsTrim s = "") ∨
       (MessageType.voice = .voice ∧
          ((none : Option String) = none ∨ (none : Option String) = some "")))) ∧
    (MessageType.voice = .image →
      ∀ msg, (sendMessage ⟨[], [], []⟩ 0 1 2 (some 3) (some 4)
        { text := .missing, replyTo := none, messageType := some .voice,
          voiceUrl := none, voiceDuration := none }).1
        ≠ .invalidInput msg) :=
  sendMessage_validation_iff ⟨[], [], []⟩ 0 1 2 3 4
    { text := .missing, replyTo := none, messageType := some .voice,
      voiceUrl := none, voiceDuration := none }

/-- C9: `getMessages` clamps `limit` to `[1, 50]` (default 30) and `page`
to at least `1` (default 1); with valid ids and no conversation for the
pair it answers the success payload `{messages: [], conversationId: null,
hasMore: false}` rather than an error. -/
theorem getMessages_clamps_and_empty_pair (db : DB) (u r : Nat)
    (pageQ limitQ : Option Int) :
    1 ≤ clampLimit limitQ ∧ clampLimit limitQ ≤ 50 ∧
    clampLimit none = 30 ∧
    1 ≤ clampPage pageQ ∧ clampPage none = 1 ∧
    (findConversation db.conversations u r = none →
      getMessages db (some u) (some r) pageQ limitQ
        = .ok [] none (clampPage pageQ) false) := by
  refine ⟨?_, ?_, by decide, ?_, by decide, ?_⟩
  · rw [clampLimit.eq_def, le_min_iff]
    exact ⟨by norm_num, le_max_left 1 _⟩
  · rw [clampLimit.eq_def]
    exact min_le_left 50 _
  · rw [clampPage.eq_def]
    exact le_max_left 1 _
  · intro h
    simp only [getMessages, h]

/-- Witness for `getMessages_clamps_and_empty_pair`: out-of-range query
values `page = -5`, `limit = 99` on an empty store. -/
theorem getMessages_clamps_and_empty_pair_witness :
    findConversation ([] : List Conversation) 1 2 = none ∧
    (1 ≤ clampLimit (some 99) ∧ clampLimit (some 99) ≤ 50 ∧
      clampLimit none = 30 ∧
      1 ≤ clampPage (some (-5)) ∧ clampPage none = 1) ∧
    getMessages ⟨[], [], []⟩ (some 1) (some 2) (some (-5)) (some 99)
      = .ok [] none (clampPage (some (-5))) false :=
  ⟨rfl,
   ⟨(getMessages_clamps_and_empty_pair ⟨[], [], []⟩ 1 2 (some (-5))
       (some 99)).1,
    (getMessages_clamps_and_empty_pair ⟨[], [], []⟩ 1 2 (some (-5))
       (some 99)).2.1,
    (getMessages_clamps_and_empty_pair ⟨[], [], []⟩ 1 2 (some (-5))
       (some 99)).2.2.1,
    (getMessages_clamps_and_empty_pair ⟨[], [], []⟩ 1 2 (some (-5))
       (some 99)).2.2.2.1,
    (getMessages_clamps_and_empty_pair ⟨[], [], []⟩ 1 2 (some (-5))
       (some 99)).2.2.2.2.1⟩,
   (getMessages_clamps_and_empty_pair ⟨[], [], []⟩ 1 2 (some (-5))
       (some 99)).2.2.2.2.2 rfl⟩

/-- The filtering loop of `deleteConversations` keeps exactly the
well-formed input ids whose conversation lists the caller among its
participants. -/
theorem mem_validConversationIds (convs : List Conversation) (u : Nat)
    (ids : List (Option Nat)) (cid : Nat) :
    cid ∈ validConversationIds convs u ids ↔
      (some cid ∈ ids ∧ ∃ c ∈ convs, c.id = cid ∧ u ∈ c.participants) := by
  induction ids with
  | nil => simp [validConversationIds]
  | cons i rest ih =>
      cases i with
      | none =>
          simp only [validConversationIds, ih, List.mem_cons]
          constructor
          · rintro ⟨h1, h2⟩; exact ⟨Or.inr h1, h2⟩
          · rintro ⟨h1 | h1, h2⟩
            · exact absurd h1 (by simp)
            · exact ⟨h1, h2⟩
      | some j =>
          rcases hf : convs.find? (fun c => c.id = j && c.participants.contains u)
            with _ | c0
          · rw [validConversationIds, hf]
            rw [ih]
            constructor
            · rintro ⟨h1, h2⟩; exact ⟨List.mem_cons_of_mem _ h1, h2⟩
            · rintro ⟨h1, c, hc, hcid, hpart⟩
              rcases List.mem_cons.1 h1 with h1 | h1
              · exfalso
                have hj : cid = j := by simpa using h1
                have := List.find?_eq_none.1 hf c hc
                simp only [Bool.and_eq_true, decide_eq_true_eq,
                  List.elem_iff] at this
                exact this ⟨hcid.trans hj, by simpa using hpart⟩
              · exact ⟨h1, c, hc, hcid, hpart⟩
          · have hp := List.find?_some hf
            have hm := List.mem_of_find?_eq_some hf
            simp only [Bool.and_eq_true, decide_eq_true_eq,
              List.elem_iff] at hp
            rw [validConversationIds, hf]
            simp only [List.mem_cons, ih]
            constructor
            · rintro (h1 | ⟨h1, h2⟩)
              · refine ⟨Or.inl (by simp [h1, hp.1]), c0, hm, by
                  simp [h1], by simpa using hp.2⟩
              · exact ⟨Or.inr h1, h2⟩
            · rintro ⟨h1 | h1, h2⟩
              · have : cid = j := by simpa using h1
                exact Or.inl (by simp [this, hp.1])
              · exact Or.inr ⟨h1, h2⟩

/-- C5: `deleteConversations` silently drops malformed and non-owned ids
(the surviving ids are exactly the well-formed ones whose conversation
lists the caller); an empty surviving set answers `NotFound` with the
store untouched; otherwise it removes every message and conversation
under the surviving ids and reports their number as `deletedCount`. -/
theorem deleteConversations_drops_and_counts (db : DB) (u : Nat)
    (ids : List (Option Nat)) (hne : ids ≠ []) :
    (∀ cid, cid ∈ validConversationIds db.conversations u ids ↔
      (some cid ∈ ids ∧
        ∃ c ∈ db.conversations, c.id = cid ∧ u ∈ c.participants)) ∧
    (validConversationIds db.conversations u ids = [] →
      deleteConversations db (some u) ids = (.notFound, db)) ∧
    (validConversationIds db.conversations u ids ≠ [] →
      (deleteConversations db (some u) ids).1
        = .ok (validConversationIds db.conversations u ids).length ∧
      (∀ m, m ∈ (deleteConversations db (some u) ids).2.messages ↔
        (m ∈ db.messages ∧
          ¬ m.conversationId ∈ validConversationIds db.conversations u ids)) ∧
      (∀ c, c ∈ (deleteConversations db (some u) ids).2.conversations ↔
        (c ∈ db.conversations ∧
          ¬ c.id ∈ validConversationIds db.conversations u ids))) := by
  have hids : ids.isEmpty = false := by
    cases ids with
    | nil => exact absurd rfl hne
    | cons a l => rfl
  refine ⟨mem_validConversationIds db.conversations u ids, ?_, ?_⟩
  · intro hv
    simp [deleteConversations, hids, hv]
  · intro hv
    have hv' : (validConversationIds db.conversations u ids).isEmpty
        = false := by
      cases h : validConversationIds db.conversations u ids with
      | nil => exact absurd h hv
      | cons a l => rfl
    refine ⟨by simp [deleteConversations, hids, hv'], ?_, ?_⟩
    · intro m
      simp [deleteConversations, hids, hv', List.mem_filter, List.elem_iff]
    · intro c
      simp [deleteConversations, hids, hv', List.mem_filter, List.elem_iff]

/-- Witness for `deleteConversations_drops_and_counts`: caller `5` owns
conversation `1` but not `2`; the request also carries a malformed id and
the unknown id `99`; exactly one conversation survives the filter. -/
theorem deleteConversations_drops_and_counts_witness :
    ([none, some 1, some 2, some 99] : List (Option Nat)) ≠ [] ∧
    validConversationIds
      [⟨1, [5, 2], ⟨"", none, 0⟩, [], 0, 0⟩,
       ⟨2, [3, 4], ⟨"", none, 0⟩, [], 0, 0⟩] 5
      [none, some 1, some 2, some 99] ≠ [] ∧
    (deleteConversations
      (DB.mk
        [⟨1, [5, 2], ⟨"", none, 0⟩, [], 0, 0⟩,
         ⟨2, [3, 4], ⟨"", none, 0⟩, [], 0, 0⟩]
        [⟨100, 1, 5, 2, .text, "a", none, none, none, false, none, [], 0⟩,
         ⟨101, 2, 3, 4, .text, "b", none, none, none, false, none, [], 0⟩]
        [])
      (some 5) [none, some 1, some 2, some 99]).1 = .ok 1 :=
  ⟨by decide, by decide,
   ((deleteConversations_drops_and_counts
      (DB.mk
        [⟨1, [5, 2], ⟨"", none, 0⟩, [], 0, 0⟩,
         ⟨2, [3, 4], ⟨"", none, 0⟩, [], 0, 0⟩]
        [⟨100, 1, 5, 2, .text, "a", none, none, none, false, none, [], 0⟩,
         ⟨101, 2, 3, 4, .text, "b", none, none, none, false, none, [], 0⟩]
        [])
      5 [none, some 1, some 2, some 99] (by decide)).2.2 (by decide)).1⟩

/-- C6: `getConversations` returns exactly the conversations in which
the caller is a participant, sorted newest-`updatedAt`-first; each entry
carries the caller's own stored unread counter (`0` when absent) and the
stored last-message preview; an entry whose other participant has no
stored profile is still returned, with `otherUser = none`. -/
theorem getConversations_participant_sorted (db : DB)
    (gpu : String → Option String) (u : Nat) :
    ∃ l, getConversations db gpu (some u) = .ok l ∧
      (∀ c ∈ db.conversations, c.participants.contains u →
        ∃ e ∈ l, e.id = c.id ∧
          e.unreadCount = (mapGet c.unreadCount u).getD 0 ∧
          e.lastMessage = c.lastMessage ∧
          (∀ oid, c.participants.find? (fun p => !(p = u)) = some oid →
            (∀ w ∈ db.users, w.id ≠ oid) → e.otherUser = none)) ∧
      (∀ e ∈ l, ∃ c ∈ db.conversations,
        c.participants.contains u ∧ e.id = c.id) ∧
      l.Pairwise (fun a b => b.updatedAt ≤ a.updatedAt) := by
  refine ⟨_, rfl, ?_, ?_, ?_⟩
  · intro c hc hpart
    refine ⟨enrichConversation db.users gpu u c, List.mem_map.2
      ⟨c, (mem_sortDescBy _ _ _).2 (List.mem_filter.2 ⟨hc, hpart⟩), rfl⟩,
      rfl, rfl, rfl, ?_⟩
    intro oid hoid hnone
    have : db.users.find? (fun w => w.id = oid) = none := by
      rw [List.find?_eq_none]
      intro w hw
      simp [hnone w hw]
    simp [enrichConversation, hoid, this]
  · intro e he
    rcases List.mem_map.1 he with ⟨c, hc, rfl⟩
    have hc' := (mem_sortDescBy _ _ _).1 hc
    rcases List.mem_filter.1 hc' with ⟨hcdb, hpart⟩
    exact ⟨c, hcdb, hpart, rfl⟩
  · rw [List.pairwise_map]
    exact pairwise_sortDescBy Conversation.updatedAt _

/-- Witness for `getConversations_participant_sorted`: caller `5` with
one conversation whose other participant (`2`) has no stored profile. -/
theorem getConversations_participant_sorted_witness :
    ∃ l, getConversations
        (DB.mk [⟨1, [5, 2], ⟨"hey", some 2, 9⟩, [(5, 3)], 0, 10⟩] [] [])
        (fun _ => none) (some 5) = .ok l ∧
      (∀ c ∈ ([⟨1, [5, 2], ⟨"hey", some 2, 9⟩, [(5, 3)], 0, 10⟩] :
          List Conversation), c.participants.contains 5 →
        ∃ e ∈ l, e.id = c.id ∧
          e.unreadCount = (mapGet c.unreadCount 5).getD 0 ∧
          e.lastMessage = c.lastMessage ∧
          (∀ oid, c.participants.find? (fun p => !(p = 5)) = some oid →
            (∀ w ∈ ([] : List User), w.id ≠ oid) → e.otherUser = none)) ∧
      (∀ e ∈ l, ∃ c ∈ ([⟨1, [5, 2], ⟨"hey", some 2, 9⟩, [(5, 3)], 0, 10⟩] :
          List Conversation), c.participants.contains 5 ∧ e.id = c.id) ∧
      l.Pairwise (fun a b => b.updatedAt ≤ a.updatedAt) :=
  getConversations_participant_sorted
    (DB.mk [⟨1, [5, 2], ⟨"hey", some 2, 9⟩, [(5, 3)], 0, 10⟩] [] [])
    (fun _ => none) 5

/-- A token string is collected into `failedTokens` exactly when it is
positionally paired with a failed response carrying one of the two
permanently-invalid error codes. -/
theorem mem_failedTokensOf (ts : List String) (rs : List FcmResponse)
    (s : String) :
    s ∈ failedTokensOf ts rs ↔
      ∃ p ∈ ts.zip rs, p.1 = s ∧ p.2.success = false ∧
        invalidTokenCode p.2.errorCode = true := by
  simp only [failedTokensOf, List.mem_filterMap]
  constructor
  · rintro ⟨p, hp, hps⟩
    by_cases hb : !p.2.success && invalidTokenCode p.2.errorCode
    · rw [if_pos hb] at hps
      simp only [Bool.and_eq_true, Bool.not_eq_true'] at hb
      exact ⟨p, hp, Option.some.inj hps, hb.1, hb.2⟩
    · rw [if_neg hb] at hps
      exact absurd hps (by simp)
  · rintro ⟨p, hp, hs, h1, h2⟩
    exact ⟨p, hp, by simp [h1, h2, hs]⟩

/-- In a zip whose left components are pairwise distinct, a left value
determines its partner. -/
theorem zip_snd_unique {α β : Type} {ts : List α} {rs : List β}
    (h : ts.Pairwise (fun a b => a ≠ b)) {s : α} {r r' : β}
    (h1 : (s, r) ∈ ts.zip rs) (h2 : (s, r') ∈ ts.zip rs) : r = r' := by
  induction ts generalizing rs with
  | nil => simp at h1
  | cons t ts ih =>
      cases rs with
      | nil => simp at h1
      | cons r0 rs =>
          rw [List.pairwise_cons] at h
          simp only [List.zip_cons_cons, List.mem_cons] at h1 h2
          rcases h1 with h1 | h1 <;> rcases h2 with h2 | h2
          · rw [Prod.mk.injEq] at h1 h2
            rw [h1.2, h2.2]
          · exfalso
            rw [Prod.mk.injEq] at h1
            have := List.of_mem_zip h2
            exact h.1 s this.1 h1.1.symm
          · exfalso
            rw [Prod.mk.injEq] at h2
            have := List.of_mem_zip h1
            exact h.1 s this.1 h2.1.symm
          · exact ih h.2 h1 h2

/-- C7: on a multicast response, `sendPushToUser` deactivates exactly the
tokens whose per-token error code is `messaging/invalid-registration-token`
or `messaging/registration-token-not-registered`; tokens whose send
succeeded or failed with any other code stay untouched (hence active), as
do tokens of other users and already-inactive ones; it reports the
aggregate success count, and a total provider failure is absorbed into a
failure result with the store unchanged — nothing is raised to the
enclosing `sendMessage`. -/
theorem sendPushToUser_deactivates_exactly_invalid
    (tokensDb : List DeviceToken) (now u : Nat)
    (resps : List FcmResponse)
    (hdist : tokensDb.Pairwise (fun a b => a.fcmToken ≠ b.fcmToken))
    (hact : tokensDb.filter (fun t => t.userId = u && t.isActive) ≠ []) :
    (∀ e, sendPushToUser tokensDb true (.thrown e) now u
        = (.failed e, tokensDb)) ∧
    (sendPushToUser tokensDb true (.ok resps) now u).1
      = .sent (resps.countP (fun r => r.success)) ∧
    (∀ p ∈ (tokensDb.filter (fun t => t.userId = u && t.isActive)).zip resps,
      (p.2.success = false ∧ invalidTokenCode p.2.errorCode = true →
        { p.1 with isActive := false, updatedAt := now }
          ∈ (sendPushToUser tokensDb true (.ok resps) now u).2) ∧
      (p.2.success = true ∨ invalidTokenCode p.2.errorCode = false →
        p.1 ∈ (sendPushToUser tokensDb true (.ok resps) now u).2)) ∧
    (∀ t ∈ tokensDb, ¬ (t.userId = u ∧ t.isActive = true) →
      t ∈ (sendPushToUser tokensDb true (.ok resps) now u).2) := by
  have hact' : (tokensDb.filter (fun t => t.userId = u && t.isActive)).isEmpty
      = false := by
    cases h : tokensDb.filter (fun t => t.userId = u && t.isActive) with
    | nil => exact absurd h hact
    | cons a l => rfl
  set act := tokensDb.filter (fun t => t.userId = u && t.isActive) with hactdef
  have hdistact : (act.map DeviceToken.fcmToken).Pairwise
      (fun a b => a ≠ b) := by
    rw [List.pairwise_map]
    exact (List.Pairwise.sublist (List.filter_sublist _) hdist)
  have hsub : ∀ q ∈ act, q ∈ tokensDb := fun q hq =>
    List.mem_of_mem_filter hq
  have htrans : ∀ p ∈ act.zip resps,
      (p.1.fcmToken, p.2) ∈ (act.map DeviceToken.fcmToken).zip resps := by
    intro p hp
    rw [List.zip_map_left]
    exact List.mem_map.2 ⟨p, hp, rfl⟩
  refine ⟨?_, ?_, ?_, ?_⟩
  · intro e
    simp only [sendPushToUser, Bool.not_true, Bool.false_eq_true, if_false,
      ← hactdef, hact']
  · simp only [sendPushToUser, Bool.not_true, Bool.false_eq_true, if_false,
      ← hactdef, hact']
  · intro p hp
    constructor
    · rintro ⟨h1, h2⟩
      have hmem : p.1.fcmToken ∈
          failedTokensOf (act.map DeviceToken.fcmToken) resps :=
        (mem_failedTokensOf _ _ _).2 ⟨(p.1.fcmToken, p.2), htrans p hp,
          rfl, h1, h2⟩
      simp only [sendPushToUser, Bool.not_true, Bool.false_eq_true, if_false,
        ← hactdef, hact']
      refine List.mem_map.2 ⟨p.1, hsub p.1 (List.of_mem_zip hp).1, ?_⟩
      rw [if_pos (List.elem_iff.2 hmem)]
    · intro hgood
      have hnmem : ¬ p.1.fcmToken ∈
          failedTokensOf (act.map DeviceToken.fcmToken) resps := by
        intro hmem
        rcases (mem_failedTokensOf _ _ _).1 hmem with ⟨q, hq, hqs, hq1, hq2⟩
        have : q.2 = p.2 := by
          rcases q with ⟨qs, qr⟩
          cases hqs
          exact zip_snd_unique hdistact hq (htrans p hp)
        rw [this] at hq1 hq2
        rcases hgood with hgood | hgood
        · rw [hgood] at hq1; exact Bool.true_eq_false.mp hq1
        · rw [hgood] at hq2; exact Bool.false_eq_true.mp hq2
      simp only [sendPushToUser, Bool.not_true, Bool.false_eq_true, if_false,
        ← hactdef, hact']
      refine List.mem_map.2 ⟨p.1, hsub p.1 (List.of_mem_zip hp).1, ?_⟩
      rw [if_neg (fun hc => hnmem (List.elem_iff.1 hc))]
  · intro t ht hnot
    have hnact : ¬ t ∈ act := by
      intro hmem
      rcases List.mem_filter.1 hmem with ⟨_, hpred⟩
      simp only [Bool.and_eq_true, decide_eq_true_eq] at hpred
      exact hnot ⟨hpred.1, hpred.2⟩
    have hnmem : ¬ t.fcmToken ∈
        failedTokensOf (act.map DeviceToken.fcmToken) resps := by
      intro hmem
      rcases (mem_failedTokensOf _ _ _).1 hmem with ⟨q, hq, hqs, hq1, hq2⟩
      rcases List.mem_map.1 (List.of_mem_zip hq).1 with ⟨t', ht'act, ht'eq⟩
      have ht'db : t' ∈ tokensDb := hsub t' ht'act
      have hne : t ≠ t' := fun h => hnact (h ▸ ht'act)
      have hsym : Symmetric (fun a b : DeviceToken =>
          a.fcmToken ≠ b.fcmToken) := by
        intro a b h e
        exact h e.symm
      have hfne : t.fcmToken ≠ t'.fcmToken :=
        List.Pairwise.forall hsym hdist ht ht'db hne
      exact hfne (ht'eq.trans hqs).symm
    simp only [sendPushToUser, Bool.not_true, Bool.false_eq_true, if_false,
      ← hactdef, hact']
    refine List.mem_map.2 ⟨t, ht, ?_⟩
    rw [if_neg (fun hc => hnmem (List.elem_iff.1 hc))]

/-- Witness for `sendPushToUser_deactivates_exactly_invalid`: user `1`
holds tokens `tokA` (reported not-registered, deactivated) and `tokB`
(internal error, left active); the aggregate success count is `0`. -/
theorem sendPushToUser_deactivates_exactly_invalid_witness :
    ([⟨1, "tokA", .android, none, true, 0, 0⟩,
      ⟨1, "tokB", .android, none, true, 0, 0⟩,
      ⟨2, "tokC", .ios, none, true, 0, 0⟩] :
        List DeviceToken).Pairwise (fun a b => a.fcmToken ≠ b.fcmToken) ∧
    ([⟨1, "tokA", .android, none, true, 0, 0⟩,
      ⟨1, "tokB", .android, none, true, 0, 0⟩,
      ⟨2, "tokC", .ios, none, true, 0, 0⟩] :
        List DeviceToken).filter (fun t => t.userId = 1 && t.isActive)
        ≠ [] ∧
    (sendPushToUser
      [⟨1, "tokA", .android, none, true, 0, 0⟩,
       ⟨1, "tokB", .android, none, true, 0, 0⟩,
       ⟨2, "tokC", .ios, none, true, 0, 0⟩] true
      (.ok [⟨false, some "messaging/registration-token-not-registered"⟩,
            ⟨false, some "messaging/internal-error"⟩]) 9 1).1 = .sent 0 ∧
    (⟨1, "tokA", .android, none, false, 0, 9⟩ : DeviceToken) ∈
      (sendPushToUser
        [⟨1, "tokA", .android, none, true, 0, 0⟩,
         ⟨1, "tokB", .android, none, true, 0, 0⟩,
         ⟨2, "tokC", .ios, none, true, 0, 0⟩] true
        (.ok [⟨false, some "messaging/registration-token-not-registered"⟩,
              ⟨false, some "messaging/internal-error"⟩]) 9 1).2 ∧
    (⟨1, "tokB", .android, none, true, 0, 0⟩ : DeviceToken) ∈
      (sendPushToUser
        [⟨1, "tokA", .android, none, true, 0, 0⟩,
         ⟨1, "tokB", .android, none, true, 0, 0⟩,
         ⟨2, "tokC", .ios, none, true, 0, 0⟩] true
        (.ok [⟨false, some "messaging/registration-token-not-registered"⟩,
              ⟨false, some "messaging/internal-error"⟩]) 9 1).2 :=
  ⟨by decide, by decide,
   (sendPushToUser_deactivates_exactly_invalid
      [⟨1, "tokA", .android, none, true, 0, 0⟩,
       ⟨1, "tokB", .android, none, true, 0, 0⟩,
       ⟨2, "tokC", .ios, none, true, 0, 0⟩] 9 1
      [⟨false, some "messaging/registration-token-not-registered"⟩,
       ⟨false, some "messaging/internal-error"⟩]
      (by decide) (by decide)).2.1,
   ((sendPushToUser_deactivates_exactly_invalid
      [⟨1, "tokA", .android, none, true, 0, 0⟩,
       ⟨1, "tokB", .android, none, true, 0, 0⟩,
       ⟨2, "tokC", .ios, none, true, 0, 0⟩] 9 1
      [⟨false, some "messaging/registration-token-not-registered"⟩,
       ⟨false, some "messaging/internal-error"⟩]
      (by decide) (by decide)).2.2.1
      (⟨1, "tokA", .android, none, true, 0, 0⟩,
       ⟨false, some "messaging/registration-token-not-registered"⟩)
      (by decide)).1 ⟨rfl, by decide⟩,
   ((sendPushToUser_deactivates_exactly_invalid
      [⟨1, "tokA", .android, none, true, 0, 0⟩,
       ⟨1, "tokB", .android, none, true, 0, 0⟩,
       ⟨2, "tokC", .ios, none, true, 0, 0⟩] 9 1
      [⟨false, some "messaging/registration-token-not-registered"⟩,
       ⟨false, some "messaging/internal-error"⟩]
      (by decide) (by decide)).2.2.1
      (⟨1, "tokB", .android, none, true, 0, 0⟩,
       ⟨false, some "messaging/internal-error"⟩)
      (by decide)).2 (Or.inr (by decide))⟩

/-- Updating a device-token record in place never changes any record's
token string. -/
theorem map_fcmToken_updateExistingToken (now u : Nat) (t : String)
    (pf : Platform) (dev : Option String) (l : List DeviceToken) :
    (updateExistingToken now u t pf dev l).map DeviceToken.fcmToken
      = l.map DeviceToken.fcmToken := by
  induction l with
  | nil => rfl
  | cons d rest ih =>
      by_cases hd : d.fcmToken = t
      · simp [updateExistingToken, hd]
      · simp [updateExistingToken, hd, ih]

theorem length_updateExistingToken (now u : Nat) (t : String)
    (pf : Platform) (dev : Option String) (l : List DeviceToken) :
    (updateExistingToken now u t pf dev l).length = l.length := by
  have := congrArg List.length
    (map_fcmToken_updateExistingToken now u t pf dev l)
  simpa using this

theorem updateExistingToken_mem (now u : Nat) (t : String) (pf : Platform)
    (dev : Option String) (l : List DeviceToken)
    (he : ∃ d ∈ l, d.fcmToken = t) :
    ∃ d ∈ updateExistingToken now u t pf dev l,
      d.fcmToken = t ∧ d.userId = u ∧ d.platform = pf ∧
      d.deviceId = dev ∧ d.isActive = true := by
  induction l with
  | nil => simp at he
  | cons d rest ih =>
      by_cases hd : d.fcmToken = t
      · rw [updateExistingToken, if_pos hd]
        exact ⟨_, List.mem_cons_self _ _, hd, rfl, rfl, rfl, rfl⟩
      · rw [updateExistingToken, if_neg hd]
        rcases he with ⟨d', hd', ht'⟩
        rcases List.mem_cons.1 hd' with h | h
        · exact absurd (h ▸ ht') hd
        · rcases ih ⟨d', h, ht'⟩ with ⟨e, he1, he2⟩
          exact ⟨e, List.mem_cons_of_mem _ he1, he2⟩

/-- The upsert preserves pairwise-distinct token strings. -/
theorem registerDeviceToken_pairwise (db : List DeviceToken) (now u : Nat)
    (t : String) (pf : Platform) (dev : Option String)
    (h : db.Pairwise (fun a b => a.fcmToken ≠ b.fcmToken)) :
    (registerDeviceToken db now u t pf dev).Pairwise
      (fun a b => a.fcmToken ≠ b.fcmToken) := by
  rw [registerDeviceToken]
  rcases hf : db.find? (fun d => d.fcmToken = t) with _ | d0
  · rw [hf]
    apply List.pairwise_append.2
    refine ⟨h, by simp, ?_⟩
    intro a ha b hb
    simp only [List.mem_singleton] at hb
    subst hb
    have := List.find?_eq_none.1 hf a ha
    simpa using this
  · rw [hf]
    have h2 : ((updateExistingToken now u t pf dev db).map
        DeviceToken.fcmToken).Pairwise (fun a b => a ≠ b) := by
      rw [map_fcmToken_updateExistingToken]
      exact List.pairwise_map.2 h
    exact List.pairwise_map.1 h2

/-- In a collection with pairwise-distinct token strings, at most one
record carries any given string. -/
theorem countP_fcmToken_le_one (l : List DeviceToken) (s : String)
    (h : l.Pairwise (fun a b => a.fcmToken ≠ b.fcmToken)) :
    l.countP (fun d => d.fcmToken = s) ≤ 1 := by
  induction l with
  | nil => simp
  | cons d rest ih =>
      rw [List.pairwise_cons] at h
      rw [List.countP_cons]
      by_cases hd : d.fcmToken = s
      · have hz : rest.countP (fun d => decide (d.fcmToken = s)) = 0 := by
          rw [List.countP_eq_zero]
          intro x hx
          simp only [decide_eq_true_eq]
          rw [← hd]
          exact fun e => (h.1 x hx) e.symm
        simp [hd, hz]
      · simp only [hd, decide_False, if_neg]
        simpa using ih h.2

theorem foldl_registerDeviceToken_pairwise
    (regs : List (Nat × Nat × String × Platform × Option String))
    (db0 : List DeviceToken)
    (h0 : db0.Pairwise (fun a b => a.fcmToken ≠ b.fcmToken)) :
    (regs.foldl (fun acc q =>
      registerDeviceToken acc q.1 q.2.1 q.2.2.1 q.2.2.2.1 q.2.2.2.2)
      db0).Pairwise (fun a b => a.fcmToken ≠ b.fcmToken) := by
  induction regs generalizing db0 with
  | nil => exact h0
  | cons q rest ih =>
      exact ih _ (registerDeviceToken_pairwise db0 q.1 q.2.1 q.2.2.1
        q.2.2.2.1 q.2.2.2.2 h0)

/-- C8: registering a token string that already exists updates that
record in place (reassigning owner, platform, device id and reactivating
it) without inserting, so token strings stay pairwise distinct — for
every string at most one record, hence at most one owner — through this
registration and any further sequence of registrations; an unseen token
string is inserted as a single new record. -/
theorem registerDeviceToken_unique_upsert (db : List DeviceToken)
    (now u : Nat) (t : String) (pf : Platform) (dev : Option String)
    (h : db.Pairwise (fun a b => a.fcmToken ≠ b.fcmToken)) :
    (registerDeviceToken db now u t pf dev).Pairwise
      (fun a b => a.fcmToken ≠ b.fcmToken) ∧
    (∀ s, (registerDeviceToken db now u t pf dev).countP
        (fun d => d.fcmToken = s) ≤ 1) ∧
    ((∃ d ∈ db, d.fcmToken = t) →
      (registerDeviceToken db now u t pf dev).length = db.length) ∧
    ((¬ ∃ d ∈ db, d.fcmToken = t) →
      (registerDeviceToken db now u t pf dev).length = db.length + 1) ∧
    (∃ d ∈ registerDeviceToken db now u t pf dev,
      d.fcmToken = t ∧ d.userId = u ∧ d.platform = pf ∧
      d.deviceId = dev ∧ d.isActive = true) ∧
    (∀ regs : List (Nat × Nat × String × Platform × Option String),
      (regs.foldl (fun acc q =>
        registerDeviceToken acc q.1 q.2.1 q.2.2.1 q.2.2.2.1 q.2.2.2.2)
        (registerDeviceToken db now u t pf dev)).Pairwise
        (fun a b => a.fcmToken ≠ b.fcmToken)) := by
  have hpre := registerDeviceToken_pairwise db now u t pf dev h
  refine ⟨hpre, fun s => countP_fcmToken_le_one _ s hpre, ?_, ?_, ?_,
    fun regs => foldl_registerDeviceToken_pairwise regs _ hpre⟩
  · intro he
    rcases hf : db.find? (fun d => d.fcmToken = t) with _ | d0
    · exfalso
      rcases he with ⟨d, hd, hdt⟩
      have := List.find?_eq_none.1 hf d hd
      simp [hdt] at this
    · rw [registerDeviceToken, hf]
      exact length_updateExistingToken now u t pf dev db
  · intro he
    have hf : db.find? (fun d => d.fcmToken = t) = none := by
      rw [List.find?_eq_none]
      intro d hd
      simp only [decide_eq_true_eq]
      exact fun e => he ⟨d, hd, e⟩
    rw [registerDeviceToken, hf]
    simp
  · rcases hf : db.find? (fun d => d.fcmToken = t) with _ | d0
    · rw [registerDeviceToken, hf]
      refine ⟨_, List.mem_append_right _ (List.mem_singleton_self _),
        rfl, rfl, rfl, rfl, rfl⟩
    · rw [registerDeviceToken, hf]
      apply updateExistingToken_mem
      refine ⟨d0, List.mem_of_find?_eq_some hf, ?_⟩
      have := List.find?_some hf
      simpa using this

/-- Witness for `registerDeviceToken_unique_upsert`: re-registering the
already-stored token `tok` from a different device reassigns the single
existing record (owner `1` → `2`, device `devA` → `devB`) and the
collection still holds one record. -/
theorem registerDeviceToken_unique_upsert_witness :
    ([⟨1, "tok", .android, some "devA", true, 0, 0⟩] :
        List DeviceToken).Pairwise (fun a b => a.fcmToken ≠ b.fcmToken) ∧
    (∃ d ∈ ([⟨1, "tok", .android, some "devA", true, 0, 0⟩] :
        List DeviceToken), d.fcmToken = "tok") ∧
    (registerDeviceToken [⟨1, "tok", .android, some "devA", true, 0, 0⟩]
        9 2 "tok" .ios (some "devB")).length = 1 ∧
    (∃ d ∈ registerDeviceToken
        [⟨1, "tok", .android, some "devA", true, 0, 0⟩]
        9 2 "tok" .ios (some "devB"),
      d.fcmToken = "tok" ∧ d.userId = 2 ∧ d.platform = .ios ∧
      d.deviceId = some "devB" ∧ d.isActive = true) :=
  ⟨by simp, by decide,
   (registerDeviceToken_unique_upsert
      [⟨1, "tok", .android, some "devA", true, 0, 0⟩] 9 2 "tok" .ios
      (some "devB") (by simp)).2.2.1 (by decide),
   (registerDeviceToken_unique_upsert
      [⟨1, "tok", .android, some "devA", true, 0, 0⟩] 9 2 "tok" .ios
      (some "devB") (by simp)).2.2.2.2.1⟩

end UserSms
